import Mathlib

/-!
Verification of the osrelease upload protocol (publisher/upload.py and the
schema/signing data contracts it relies on).

The HTTP layer is modelled by a response oracle `server : Request → HResp`;
the JSON library is modelled by oracles `parse : String → FileList` (for
`FileList(**json.loads(body))`) and `detailOf : String → Option String`
(for `json.loads(body)["detail"]`, returning `none` when that expression
raises).  Every driver function is a pure function of those oracles that
additionally returns the ordered list of HTTP requests it issued and the
log events it reported, so ordering and reporting claims can be stated
directly.
-/

namespace OSRelease

/-- Character-level path separator normalization: backslash becomes slash.
Modelled from the spec: `publisher/schema.py` is absent from the sources;
§4.4 requires any path separator to be rendered as `/`. -/
def normChar (c : Char) : Char := if c = '\\' then '/' else c

/-- Normalize a path string, rendering every backslash separator as `/`.
Modelled from the spec: `publisher/schema.py` is absent from the sources. -/
def normalizePath (s : String) : String := ⟨s.data.map normChar⟩

/-- One entry of the server's file index.
Modelled from the spec: `publisher/schema.py` (class `FileMetadata`) is absent
from the sources; §3 gives fields `name`, `size`, `sha256`, `date`, and
`create_release` assigns its `metadata` attribute. -/
structure FileMetadata where
  name : String
  size : Nat
  sha256 : String
  date : String
  metadata : Option (List (String × String))
deriving DecidableEq, Repr

/-- An ordered collection of `FileMetadata` plus an open metadata map.
Modelled from the spec: `publisher/schema.py` (class `FileList`) is absent
from the sources; §3 and §4.4 describe it. -/
structure FileList where
  files : List FileMetadata
  metadata : Option (List (String × String))
deriving DecidableEq, Repr

/-- Index lookup by exact relative path.
Modelled from the spec: `publisher/schema.py` is absent from the sources;
§4.4 (b): lookup-by-name returns not-found for any path not exactly present,
and §3: paths using backslashes are normalized before comparison. -/
def FileList.get (fl : FileList) (name : String) : Option FileMetadata :=
  fl.files.find? (fun fd => fd.name = normalizePath name)

/-- A single-file upload record carrying only a normalized name.
Modelled from the spec: `publisher/schema.py` (class `ReleaseFile`) is absent
from the sources; §3 and the schema test require that constructing it from a
backslash-separated path yields a forward-slash `name`. -/
structure ReleaseFile where
  name : String
deriving DecidableEq, Repr

/-- Construct a `ReleaseFile` from a raw path string, normalizing separators.
Modelled from the spec: `publisher/schema.py` is absent from the sources. -/
def ReleaseFile.ofPath (p : String) : ReleaseFile := ⟨normalizePath p⟩

/-- The signed-claim record: url, user, expiry (seconds since epoch).
Modelled from the spec: `publisher/signing.py` is absent from the sources;
§3 gives the fields. -/
structure AuthToken where
  url : String
  user : String
  expiry : Nat
deriving DecidableEq, Repr

/-- An issued token: the claims together with the secret and salt that signed
them (the signature binds exactly these inputs).
Modelled from the spec: `publisher/signing.py` is absent from the sources;
§4.1: the token encodes url+user+expiry recoverably and is bound to the
shared secret and the salt. -/
structure SignedToken where
  claims : AuthToken
  secret : String
  salt : String
deriving DecidableEq, Repr

/-- Signing a claim set with a secret under a salt.
Modelled from the spec: `publisher/signing.py` is absent from the sources. -/
def AuthToken.sign (tok : AuthToken) (secret : String) (salt : String) : SignedToken :=
  ⟨tok, secret, salt⟩

/-- The resolved configuration map (workspace, secret, username, server). -/
structure Cfg where
  api_server : String
  workspace : String
  username : String
  backend_token : String
deriving DecidableEq, Repr

/-- `get_token` from upload.py: claims scoped to `url` for `user`, expiring
five minutes from now, signed with the backend token under salt "hatch".
`now` is the current time in seconds (datetime.now at issuance). -/
def get_token (now : Nat) (url user backend_token : String) : SignedToken :=
  AuthToken.sign ⟨url, user, now + 5 * 60⟩ backend_token "hatch"

/-- The workspace URL built by `get_auth`. -/
def workspaceUrl (cfg : Cfg) : String :=
  cfg.api_server ++ "/workspace/" ++ cfg.workspace

/-- `get_auth` from upload.py. -/
def get_auth (now : Nat) (cfg : Cfg) : String × SignedToken :=
  let workspace_url := workspaceUrl cfg
  (workspace_url, get_token now workspace_url cfg.username cfg.backend_token)

/-- Body of an outgoing request, kept structured so payload claims can be
stated: either empty, a release-creation `FileList`, or a per-file
`ReleaseFile` record (upload.py serializes these with `.json()`). -/
inductive ReqBody where
  | empty : ReqBody
  | fileListBody : FileList → ReqBody
  | releaseFileBody : ReleaseFile → ReqBody
deriving DecidableEq, Repr

/-- One HTTP request issued by the client. -/
structure Request where
  method : String
  url : String
  body : ReqBody
deriving DecidableEq, Repr

/-- One HTTP response as seen by `release_hatch`: status, the Content-Type
header, the decoded body text, and the Release-Id header. -/
structure HResp where
  status : Nat
  contentType : Option String
  body : String
  releaseId : String
deriving DecidableEq, Repr

/-- Outcome of one `release_hatch` call: a 2xx success returning the response
and raw body, or one of the typed exceptions it raises. -/
inductive HatchResult where
  | success : HResp → String → HatchResult
  | forbidden : HatchResult
  | tooLarge : HatchResult
  | alreadyUp : HatchResult
  | failure : String → HatchResult
deriving DecidableEq, Repr

/-- `pat == s.take pat.length`: the pattern occurs at the head of `s`. -/
def subAt (pat s : List Char) : Bool := pat == s.take pat.length

/-- `pat` occurs as a contiguous run somewhere in `s` (Python `in`). -/
def hasSubList (pat : List Char) : List Char → Bool
  | [] => pat == []
  | c :: rest => subAt pat (c :: rest) || hasSubList pat rest

/-- `pat in s` on strings, as used for the "already been uploaded" match. -/
def hasSubstring (s pat : String) : Bool := hasSubList pat.data s.data

/-- The error-body extraction of `release_hatch`: when the response declares
`Content-Type: application/json`, replace the body by its JSON `detail`
field when that parses (`detailOf`), else keep the raw body. -/
def extractErrorBody (detailOf : String → Option String) (r : HResp) : String :=
  if r.contentType = some "application/json" then
    match detailOf r.body with
    | some d => d
    | none => r.body
  else r.body

/-- The response classification of `release_hatch`: 200/201 succeed with the
raw body; otherwise the error body is extracted and 403 raises Forbidden,
413 raises UploadTooLarge, 400 with the "already been uploaded" substring
raises AlreadyUploaded, and anything else raises a generic UploadException
with the standard message. -/
def release_hatch (detailOf : String → Option String) (r : HResp) : HatchResult :=
  if r.status = 200 ∨ r.status = 201 then
    HatchResult.success r r.body
  else
    let body := extractErrorBody detailOf r
    if r.status = 403 then HatchResult.forbidden
    else if r.status = 413 then HatchResult.tooLarge
    else if r.status = 400 ∧ hasSubstring body "already been uploaded" then
      HatchResult.alreadyUp
    else
      HatchResult.failure
        ("Error: " ++ toString r.status ++ " response from the server: " ++ body)

/-- An exception value propagating out of a driver function. -/
inductive ExcVal where
  | forbidden : ExcVal
  | tooLarge : ExcVal
  | alreadyUp : ExcVal
  | uploadError : String → ExcVal
deriving DecidableEq, Repr

/-- Repackage a non-success `HatchResult` as the exception it raises. -/
def HatchResult.toExc : HatchResult → ExcVal
  | .success _ _ => ExcVal.uploadError ""
  | .forbidden => ExcVal.forbidden
  | .tooLarge => ExcVal.tooLarge
  | .alreadyUp => ExcVal.alreadyUp
  | .failure m => ExcVal.uploadError m

/-- The uniform metadata attached by create_release. -/
def toolMetadata : List (String × String) := [("tool", "osrelease")]

/-- `filedata.metadata = {"tool": "osrelease"}`. -/
def setToolMetadata (fd : FileMetadata) : FileMetadata :=
  { fd with metadata := some toolMetadata }

/-- The file-matching loop of `create_release`: look each requested file up in
the fetched index, annotate it, and collect; exit at the first file the index
does not contain. -/
def buildFiles (index : FileList) : List String → Except String (List FileMetadata)
  | [] => Except.ok []
  | f :: rest =>
    match index.get f with
    | none => Except.error ("cannot find file " ++ f)
    | some fd => (buildFiles index rest).map (fun l => setToolMetadata fd :: l)

/-- The index URL `workspace_url + "/current"`. -/
def indexUrl (cfg : Cfg) : String := workspaceUrl cfg ++ "/current"

/-- The release-creation URL `workspace_url + "/release"`. -/
def releaseCreateUrl (cfg : Cfg) : String := workspaceUrl cfg ++ "/release"

/-- The per-release upload URL `workspace_url + "/release/" + release_id`. -/
def releaseUrl (cfg : Cfg) (release_id : String) : String :=
  workspaceUrl cfg ++ "/release/" ++ release_id

/-- The GET request fetching the index. -/
def indexRequest (cfg : Cfg) : Request := ⟨"GET", indexUrl cfg, ReqBody.empty⟩

/-- The POST request creating a release from a payload. -/
def createRequest (cfg : Cfg) (payload : FileList) : Request :=
  ⟨"POST", releaseCreateUrl cfg, ReqBody.fileListBody payload⟩

/-- The POST request uploading one file to a release endpoint. -/
def uploadRequest (url : String) (f : String) : Request :=
  ⟨"POST", url, ReqBody.releaseFileBody (ReleaseFile.ofPath f)⟩

/-- Result of `create_release`: the Release-Id on success, a `sys.exit`
with a message, or a propagating exception. -/
inductive CreateResult where
  | ok : String → CreateResult
  | exited : String → CreateResult
  | failed : ExcVal → CreateResult
deriving DecidableEq, Repr

/-- A finished `create_release` call: the requests it issued, in order, and
its result. -/
structure CreateRun where
  trace : List Request
  result : CreateResult
deriving DecidableEq, Repr

/-- `create_release` from upload.py: GET the current index, parse it, match
every requested file against it (exiting on a miss), POST the annotated
subset as the release-creation payload, translating a Forbidden response
into the permission UploadException, and return the Release-Id header. -/
def create_release (detailOf : String → Option String) (server : Request → HResp)
    (parse : String → FileList) (files : List String) (cfg : Cfg) : CreateRun :=
  let getReq := indexRequest cfg
  match release_hatch detailOf (server getReq) with
  | HatchResult.success _ body =>
    let index := parse body
    match buildFiles index files with
    | Except.error msg => ⟨[getReq], CreateResult.exited msg⟩
    | Except.ok matched =>
      let payload : FileList := ⟨matched, some toolMetadata⟩
      let postReq := createRequest cfg payload
      match release_hatch detailOf (server postReq) with
      | HatchResult.success resp _ =>
        ⟨[getReq, postReq], CreateResult.ok resp.releaseId⟩
      | HatchResult.forbidden =>
        ⟨[getReq, postReq], CreateResult.failed (ExcVal.uploadError
          ("User " ++ cfg.username ++ " does not have permission to create a release"))⟩
      | e => ⟨[getReq, postReq], CreateResult.failed e.toExc⟩
  | e => ⟨[getReq], CreateResult.failed e.toExc⟩

/-- One reported log line of `upload_to_release`. -/
inductive LogEvent where
  | uploading : String → LogEvent
  | tooLargeSkip : LogEvent
  | alreadySkip : LogEvent
  | deniedMsg : String → LogEvent
  | uploadedSummary : Nat → String → LogEvent
deriving DecidableEq, Repr

/-- How the per-file loop of `upload_to_release` ended: ran through all
files, was broken by a Forbidden response, or by a fatal exception. -/
inductive LoopExit where
  | completed : LoopExit
  | deniedExit : LoopExit
  | fatal : ExcVal → LoopExit
deriving DecidableEq, Repr

/-- The `for f in files` loop of `upload_to_release`: POST one ReleaseFile
record per file, in list order; UploadTooLarge and AlreadyUploaded are
caught per file (log a skip, continue); Forbidden escapes to the outer
handler ending the loop; any other UploadException is fatal. Returns the
requests issued, the log lines, and how the loop ended. -/
def uploadLoop (detailOf : String → Option String) (server : Request → HResp)
    (url : String) : List String → List Request × List LogEvent × LoopExit
  | [] => ([], [], LoopExit.completed)
  | f :: rest =>
    let req := uploadRequest url f
    match release_hatch detailOf (server req) with
    | HatchResult.success _ _ =>
      let (tr, lg, ex) := uploadLoop detailOf server url rest
      (req :: tr, LogEvent.uploading f :: lg, ex)
    | HatchResult.tooLarge =>
      let (tr, lg, ex) := uploadLoop detailOf server url rest
      (req :: tr, LogEvent.uploading f :: LogEvent.tooLargeSkip :: lg, ex)
    | HatchResult.alreadyUp =>
      let (tr, lg, ex) := uploadLoop detailOf server url rest
      (req :: tr, LogEvent.uploading f :: LogEvent.alreadySkip :: lg, ex)
    | HatchResult.forbidden =>
      ([req], [LogEvent.uploading f], LoopExit.deniedExit)
    | HatchResult.failure m =>
      ([req], [LogEvent.uploading f], LoopExit.fatal (ExcVal.uploadError m))

/-- Result of `upload_to_release`. -/
inductive UploadResult where
  | done : UploadResult
  | deniedReported : UploadResult
  | failed : ExcVal → UploadResult
deriving DecidableEq, Repr

/-- A finished `upload_to_release` call. -/
structure UploadRun where
  trace : List Request
  log : List LogEvent
  result : UploadResult
deriving DecidableEq, Repr

/-- `upload_to_release` from upload.py: run the per-file loop; when it runs
through, report "Uploaded len(files) files"; when Forbidden broke it,
report permission denied once; a fatal exception propagates unreported. -/
def upload_to_release (detailOf : String → Option String) (server : Request → HResp)
    (files : List String) (release_id : String) (cfg : Cfg) : UploadRun :=
  let url := releaseUrl cfg release_id
  match uploadLoop detailOf server url files with
  | (tr, lg, LoopExit.completed) =>
    ⟨tr, lg ++ [LogEvent.uploadedSummary files.length release_id], UploadResult.done⟩
  | (tr, lg, LoopExit.deniedExit) =>
    ⟨tr, lg ++ [LogEvent.deniedMsg release_id], UploadResult.deniedReported⟩
  | (tr, lg, LoopExit.fatal e) => ⟨tr, lg, UploadResult.failed e⟩

/-- Final outcome of `main`. -/
inductive MainResult where
  | completed : MainResult
  | deniedUpload : MainResult
  | exited : String → MainResult
  | failed : ExcVal → MainResult
deriving DecidableEq, Repr

/-- A finished `main` call. -/
structure MainRun where
  trace : List Request
  log : List LogEvent
  result : MainResult
deriving DecidableEq, Repr

/-- `main` from upload.py: create the release, then upload to it; an
exception or exit from `create_release` propagates before any upload
request is issued. -/
def main (detailOf : String → Option String) (server : Request → HResp)
    (parse : String → FileList) (files : List String) (cfg : Cfg) : MainRun :=
  match create_release detailOf server parse files cfg with
  | ⟨tr, CreateResult.ok release_id⟩ =>
    let u := upload_to_release detailOf server files release_id cfg
    ⟨tr ++ u.trace, u.log,
      match u.result with
      | UploadResult.done => MainResult.completed
      | UploadResult.deniedReported => MainResult.deniedUpload
      | UploadResult.failed e => MainResult.failed e⟩
  | ⟨tr, CreateResult.exited msg⟩ => ⟨tr, [], MainResult.exited msg⟩
  | ⟨tr, CreateResult.failed e⟩ => ⟨tr, [], MainResult.failed e⟩

/-- The exception classes declared at the top of upload.py. -/
inductive ExcClass where
  | exception : ExcClass
  | uploadException : ExcClass
  | forbiddenC : ExcClass
  | uploadTooLargeC : ExcClass
  | alreadyUploadedC : ExcClass
deriving DecidableEq, Repr, Fintype

/-- The declared base class of each exception class:
`class UploadException(Exception)`, `class Forbidden(Exception)`,
`class UploadTooLarge(UploadException)`, `class AlreadyUploaded(UploadException)`. -/
def parentClass : ExcClass → Option ExcClass
  | ExcClass.exception => none
  | ExcClass.uploadException => some ExcClass.exception
  | ExcClass.forbiddenC => some ExcClass.exception
  | ExcClass.uploadTooLargeC => some ExcClass.uploadException
  | ExcClass.alreadyUploadedC => some ExcClass.uploadException

/-- The reflexive ancestor chain of a class (the hierarchy has depth ≤ 2). -/
def ancestorList (c : ExcClass) : List ExcClass :=
  [some c, parentClass c, (parentClass c).bind parentClass].filterMap id

/-- `c` is `d` or inherits from `d` (Python `issubclass`). -/
def isSubclass (c d : ExcClass) : Bool := (ancestorList c).contains d

/-- A `except D:` clause catches an exception of class `e` iff `e` is a
subclass of `D`. -/
def catches (handler e : ExcClass) : Bool := isSubclass e handler

/-- Join path segments with a one-character separator. -/
def joinPath (sep : String) : List String → String
  | [] => ""
  | [s] => s
  | s :: t :: rest => s ++ sep ++ joinPath sep (t :: rest)

/-- The `release_hatch` outcomes on which the upload loop proceeds to the
next file: success, or a per-file skip (too large / already uploaded). -/
def continuesLoop : HatchResult → Bool
  | HatchResult.success _ _ => true
  | HatchResult.tooLarge => true
  | HatchResult.alreadyUp => true
  | HatchResult.forbidden => false
  | HatchResult.failure _ => false

/-- The log lines the upload loop emits for one file when it continues past
it: the "uploading" line, plus a skip line when the file was skipped. -/
def perFileLog (detailOf : String → Option String) (server : Request → HResp)
    (url : String) (f : String) : List LogEvent :=
  match release_hatch detailOf (server (uploadRequest url f)) with
  | HatchResult.tooLarge => [LogEvent.uploading f, LogEvent.tooLargeSkip]
  | HatchResult.alreadyUp => [LogEvent.uploading f, LogEvent.alreadySkip]
  | _ => [LogEvent.uploading f]

/-- How many of the issued requests were answered with a 2xx success. -/
def successCount (detailOf : String → Option String) (server : Request → HResp)
    (tr : List Request) : Nat :=
  (tr.filter (fun r => continuesLoop (release_hatch detailOf (server r)) &&
    !(release_hatch detailOf (server r) matches HatchResult.tooLarge) &&
    !(release_hatch detailOf (server r) matches HatchResult.alreadyUp))).length

/-- Concrete index entry used in witness runs. -/
def fmFoo : FileMetadata := ⟨"foo.txt", 3, "h1", "2021-01-01", none⟩

/-- Concrete index entry used in witness runs. -/
def fmBar : FileMetadata := ⟨"dir/bar.txt", 4, "h2", "2021-01-01", none⟩

/-- Concrete server index used in witness runs. -/
def indexW : FileList := ⟨[fmFoo, fmBar], none⟩

/-- Concrete configuration used in witness runs. -/
def cfgW : Cfg := ⟨"https://api", "ws", "alice", "secret"⟩

/-- Parse oracle returning the concrete index for any body. -/
def parseW : String → FileList := fun _ => indexW

/-- Detail oracle for bodies that are not JSON objects with a detail field. -/
def dW : String → Option String := fun _ => none

/-- Detail oracle whose JSON detail field always parses to "boom". -/
def dJson : String → Option String := fun _ => some "boom"

/-- Server answering the index GET with 200 and everything else with 201. -/
def serverOk : Request → HResp :=
  fun r => if r.method = "GET" then ⟨200, none, "IDX", ""⟩ else ⟨201, none, "", "R1"⟩

/-- Server answering every request with 403. -/
def server403 : Request → HResp := fun _ => ⟨403, none, "", ""⟩

/-- Server answering every request with 413. -/
def server413 : Request → HResp := fun _ => ⟨413, none, "", ""⟩

/-- Server answering every request with 201. -/
def server201 : Request → HResp := fun _ => ⟨201, none, "", ""⟩

/-- Server answering the index GET with 200 and the creation POST with 403. -/
def serverCreate403 : Request → HResp :=
  fun r => if r.method = "GET" then ⟨200, none, "IDX", ""⟩ else ⟨403, none, "", ""⟩

/-- Server answering the upload of "b.txt" with 403 and all else with 201. -/
def serverFileB403 : Request → HResp := fun r =>
  match r.body with
  | ReqBody.releaseFileBody rf =>
    if rf.name = "b.txt" then ⟨403, none, "", ""⟩ else ⟨201, none, "", ""⟩
  | _ => ⟨201, none, "", ""⟩

/-- A 500 response declaring a JSON content type. -/
def r500 : HResp := ⟨500, some "application/json", "BODY", ""⟩

theorem release_hatch_forbidden (d : String → Option String) (r : HResp)
    (h : r.status = 403) : release_hatch d r = HatchResult.forbidden := by
  unfold release_hatch
  rw [h]
  norm_num

theorem release_hatch_tooLarge (d : String → Option String) (r : HResp)
    (h : r.status = 413) : release_hatch d r = HatchResult.tooLarge := by
  unfold release_hatch
  rw [h]
  norm_num

theorem FileList.get_name {fl : FileList} {n : String} {orig : FileMetadata}
    (h : fl.get n = some orig) : orig.name = normalizePath n := by
  unfold FileList.get at h
  have := List.find?_some h
  simpa using this

theorem FileList.get_mem {fl : FileList} {n : String} {orig : FileMetadata}
    (h : fl.get n = some orig) : orig ∈ fl.files :=
  List.mem_of_find?_eq_some h

theorem normalizePath_append (s t : String) :
    normalizePath (s ++ t) = normalizePath s ++ normalizePath t := by
  cases s with
  | mk ds =>
    cases t with
    | mk dt =>
      show String.mk ((ds ++ dt).map normChar)
        = String.mk (ds.map normChar) ++ String.mk (dt.map normChar)
      rw [List.map_append]
      rfl

theorem normalizePath_backslash : normalizePath "\\" = "/" := by decide

theorem normalizePath_slash : normalizePath "/" = "/" := by decide

theorem uploadLoop_nil (d : String → Option String) (s : Request → HResp) (url : String) :
    uploadLoop d s url [] = ([], [], LoopExit.completed) := rfl

theorem uploadLoop_cons_continue {d : String → Option String} {s : Request → HResp}
    {url f : String} {rest : List String}
    (h : continuesLoop (release_hatch d (s (uploadRequest url f))) = true) :
    uploadLoop d s url (f :: rest)
      = (uploadRequest url f :: (uploadLoop d s url rest).1,
         perFileLog d s url f ++ (uploadLoop d s url rest).2.1,
         (uploadLoop d s url rest).2.2) := by
  rcases hrest : uploadLoop d s url rest with ⟨tr, lg, ex⟩
  cases hc : release_hatch d (s (uploadRequest url f)) with
  | success resp b => simp [uploadLoop, hc, hrest, perFileLog]
  | tooLarge => simp [uploadLoop, hc, hrest, perFileLog]
  | alreadyUp => simp [uploadLoop, hc, hrest, perFileLog]
  | forbidden =>
    rw [hc] at h
    exact absurd h (by simp [continuesLoop])
  | failure m =>
    rw [hc] at h
    exact absurd h (by simp [continuesLoop])

theorem uploadLoop_all_continue {d : String → Option String} {s : Request → HResp}
    {url : String} {files : List String}
    (h : ∀ f ∈ files, continuesLoop (release_hatch d (s (uploadRequest url f))) = true) :
    uploadLoop d s url files
      = (files.map (uploadRequest url),
         files.flatMap (perFileLog d s url),
         LoopExit.completed) := by
  induction files with
  | nil => simp [uploadLoop]
  | cons f rest ih =>
    rw [uploadLoop_cons_continue (h f (by simp)),
        ih (fun g hg => h g (by simp [hg]))]
    simp

theorem uploadLoop_stops_forbidden {d : String → Option String} {s : Request → HResp}
    {url f : String} {pre post : List String}
    (hpre : ∀ g ∈ pre, continuesLoop (release_hatch d (s (uploadRequest url g))) = true)
    (hf : release_hatch d (s (uploadRequest url f)) = HatchResult.forbidden) :
    uploadLoop d s url (pre ++ f :: post)
      = (pre.map (uploadRequest url) ++ [uploadRequest url f],
         pre.flatMap (perFileLog d s url) ++ [LogEvent.uploading f],
         LoopExit.deniedExit) := by
  induction pre with
  | nil => simp [uploadLoop, hf]
  | cons g gs ih =>
    rw [List.cons_append, uploadLoop_cons_continue (hpre g (by simp)),
        ih (fun q hq => hpre q (by simp [hq]))]
    simp

theorem perFileLog_events {d : String → Option String} {s : Request → HResp}
    {url f : String} :
    ∀ ev ∈ perFileLog d s url f,
      ev = LogEvent.uploading f ∨ ev = LogEvent.tooLargeSkip ∨ ev = LogEvent.alreadySkip := by
  intro ev hev
  unfold perFileLog at hev
  cases hq : release_hatch d (s (uploadRequest url f)) <;>
    rw [hq] at hev <;> simp at hev <;> tauto

theorem buildFiles_mem {index : FileList} {files : List String} {l : List FileMetadata}
    (h : buildFiles index files = Except.ok l) (md : FileMetadata) :
    md ∈ l ↔ ∃ f ∈ files, ∃ orig, index.get f = some orig ∧ md = setToolMetadata orig := by
  induction files generalizing l with
  | nil =>
    simp only [buildFiles, Except.ok.injEq] at h
    subst h
    simp
  | cons f rest ih =>
    rw [buildFiles] at h
    cases hg : index.get f with
    | none =>
      rw [hg] at h
      exact absurd h (by simp)
    | some fd =>
      rw [hg] at h
      cases hb : buildFiles index rest with
      | error m =>
        rw [hb] at h
        exact absurd h (by simp [Except.map])
      | ok l' =>
        rw [hb] at h
        simp only [Except.map, Except.ok.injEq] at h
        subst h
        constructor
        · intro hmem'
          rcases List.mem_cons.1 hmem' with rfl | hmem
          · exact ⟨f, by simp, fd, hg, rfl⟩
          · obtain ⟨g, hgmem, orig, hgo, rfl⟩ := (ih hb).1 hmem
            exact ⟨g, by simp [hgmem], orig, hgo, rfl⟩
        · rintro ⟨g, hgmem, orig, hgo, rfl⟩
          rcases List.mem_cons.1 hgmem with rfl | hgrest
          · rw [hg] at hgo
            injection hgo with e
            subst e
            exact List.mem_cons_self _ _
          · exact List.mem_cons_of_mem _ ((ih hb).2 ⟨g, hgrest, orig, hgo, rfl⟩)

theorem buildFiles_names {index : FileList} {files : List String} {l : List FileMetadata}
    (h : buildFiles index files = Except.ok l) :
    ∀ md ∈ l, ∃ f ∈ files, md.name = normalizePath f := by
  intro md hmd
  obtain ⟨f, hf, orig, horig, rfl⟩ := (buildFiles_mem h md).1 hmd
  exact ⟨f, hf, by simp [setToolMetadata, FileList.get_name horig]⟩

theorem buildFiles_error_of_missing {index : FileList} {files : List String} {f : String}
    (hmem : f ∈ files) (hnone : index.get f = none) :
    ∃ g ∈ files, index.get g = none ∧
      buildFiles index files = Except.error ("cannot find file " ++ g) := by
  induction files with
  | nil => cases hmem
  | cons a rest ih =>
    cases hg : index.get a with
    | none => exact ⟨a, by simp, hg, by rw [buildFiles, hg]⟩
    | some fd =>
      have hf : f ∈ rest := by
        rcases List.mem_cons.1 hmem with rfl | h'
        · rw [hg] at hnone
          cases hnone
        · exact h'
      obtain ⟨g, hgrest, hgn, hberr⟩ := ih hf
      refine ⟨g, by simp [hgrest], hgn, ?_⟩
      rw [buildFiles, hg, hberr]
      rfl

theorem create_release_matched {detailOf : String → Option String} {server : Request → HResp}
    {parse : String → FileList} {files : List String} {cfg : Cfg}
    {resp : HResp} {body : String} {matched : List FileMetadata}
    (hidx : release_hatch detailOf (server (indexRequest cfg)) = HatchResult.success resp body)
    (hb : buildFiles (parse body) files = Except.ok matched) :
    (create_release detailOf server parse files cfg).trace
      = [indexRequest cfg, createRequest cfg ⟨matched, some toolMetadata⟩] := by
  simp only [create_release, hidx, hb]
  cases release_hatch detailOf
      (server (createRequest cfg ⟨matched, some toolMetadata⟩)) <;> rfl

theorem create_release_forbidden_post {detailOf : String → Option String}
    {server : Request → HResp} {parse : String → FileList} {files : List String} {cfg : Cfg}
    {resp : HResp} {body : String} {matched : List FileMetadata}
    (hidx : release_hatch detailOf (server (indexRequest cfg)) = HatchResult.success resp body)
    (hb : buildFiles (parse body) files = Except.ok matched)
    (h403 : release_hatch detailOf
      (server (createRequest cfg ⟨matched, some toolMetadata⟩)) = HatchResult.forbidden) :
    create_release detailOf server parse files cfg
      = ⟨[indexRequest cfg, createRequest cfg ⟨matched, some toolMetadata⟩],
         CreateResult.failed (ExcVal.uploadError
           ("User " ++ cfg.username ++ " does not have permission to create a release"))⟩ := by
  simp only [create_release, hidx, hb, h403]

theorem create_release_missing {detailOf : String → Option String}
    {server : Request → HResp} {parse : String → FileList} {files : List String} {cfg : Cfg}
    {resp : HResp} {body msg : String}
    (hidx : release_hatch detailOf (server (indexRequest cfg)) = HatchResult.success resp body)
    (hberr : buildFiles (parse body) files = Except.error msg) :
    create_release detailOf server parse files cfg
      = ⟨[indexRequest cfg], CreateResult.exited msg⟩ := by
  simp only [create_release, hidx, hberr]

/-- C8: every token issued through `get_auth`/`get_token` carries an expiry of
exactly the issuance time plus 5 minutes (300 seconds), is scoped to the exact
workspace URL being used, and is signed with the backend token under the salt
"hatch". -/
theorem upload_C8 (now : Nat) (cfg : Cfg) :
    (get_auth now cfg).1 = workspaceUrl cfg ∧
    ((get_auth now cfg).2).claims.url = workspaceUrl cfg ∧
    ((get_auth now cfg).2).claims.user = cfg.username ∧
    ((get_auth now cfg).2).claims.expiry = now + 5 * 60 ∧
    ((get_auth now cfg).2).salt = "hatch" ∧
    ((get_auth now cfg).2).secret = cfg.backend_token :=
  ⟨rfl, rfl, rfl, rfl, rfl, rfl⟩

/-- C9: a path written with backslash separators yields exactly the same
server-facing `ReleaseFile.name` as the equivalent forward-slash-separated
path, for any list of segments. -/
theorem upload_C9 (segs : List String) :
    ReleaseFile.ofPath (joinPath "\\" segs) = ReleaseFile.ofPath (joinPath "/" segs) := by
  suffices h : normalizePath (joinPath "\\" segs) = normalizePath (joinPath "/" segs) by
    simp [ReleaseFile.ofPath, h]
  induction segs with
  | nil => rfl
  | cons s rest ih =>
    cases rest with
    | nil => rfl
    | cons t rest2 =>
      show normalizePath (s ++ "\\" ++ joinPath "\\" (t :: rest2))
          = normalizePath (s ++ "/" ++ joinPath "/" (t :: rest2))
      rw [normalizePath_append, normalizePath_append, normalizePath_append,
          normalizePath_append, normalizePath_backslash, normalizePath_slash, ih]

/-- C10: `Forbidden` is not a subclass of `UploadException` while
`UploadTooLarge` and `AlreadyUploaded` are; no exception class is caught both
by the per-file skip handlers and by the `Forbidden` handler; and in the
upload loop a 403 response ends the batch as a denial (never a per-file
skip) while a 413 response is skipped and the loop continues (never a
denial). -/
theorem upload_C10 :
    isSubclass ExcClass.forbiddenC ExcClass.uploadException = false ∧
    isSubclass ExcClass.uploadTooLargeC ExcClass.uploadException = true ∧
    isSubclass ExcClass.alreadyUploadedC ExcClass.uploadException = true ∧
    (∀ e : ExcClass, ¬(catches ExcClass.forbiddenC e = true ∧
      (catches ExcClass.uploadTooLargeC e = true ∨
        catches ExcClass.alreadyUploadedC e = true))) ∧
    (∀ (d : String → Option String) (s : Request → HResp) (url f : String)
        (rest : List String),
      ((s (uploadRequest url f)).status = 403 →
        uploadLoop d s url (f :: rest)
          = ([uploadRequest url f], [LogEvent.uploading f], LoopExit.deniedExit)) ∧
      ((s (uploadRequest url f)).status = 413 →
        uploadLoop d s url (f :: rest)
          = (uploadRequest url f :: (uploadLoop d s url rest).1,
             LogEvent.uploading f :: LogEvent.tooLargeSkip ::
               (uploadLoop d s url rest).2.1,
             (uploadLoop d s url rest).2.2))) := by
  refine ⟨by decide, by decide, by decide, by decide, ?_⟩
  intro d s url f rest
  constructor
  · intro h403
    have hf := release_hatch_forbidden d (s (uploadRequest url f)) h403
    simp [uploadLoop, hf]
  · intro h413
    have hf := release_hatch_tooLarge d (s (uploadRequest url f)) h413
    rcases hrest : uploadLoop d s url rest with ⟨tr, lg, ex⟩
    simp [uploadLoop, hf, hrest]

/-- Witness for C10: on a server answering 403 the loop ends as a denial with
no skip; on a server answering 413 the loop logs a skip and continues. -/
theorem upload_C10_witness :
    uploadLoop dW server403 (releaseUrl cfgW "R1") ["a.txt", "b.txt"]
      = ([uploadRequest (releaseUrl cfgW "R1") "a.txt"],
         [LogEvent.uploading "a.txt"], LoopExit.deniedExit) ∧
    uploadLoop dW server413 (releaseUrl cfgW "R1") ["a.txt"]
      = (uploadRequest (releaseUrl cfgW "R1") "a.txt"
           :: (uploadLoop dW server413 (releaseUrl cfgW "R1") []).1,
         LogEvent.uploading "a.txt" :: LogEvent.tooLargeSkip
           :: (uploadLoop dW server413 (releaseUrl cfgW "R1") []).2.1,
         (uploadLoop dW server413 (releaseUrl cfgW "R1") []).2.2) :=
  ⟨(upload_C10.2.2.2.2 dW server403 (releaseUrl cfgW "R1") "a.txt" ["b.txt"]).1 (by decide),
   (upload_C10.2.2.2.2 dW server413 (releaseUrl cfgW "R1") "a.txt" []).2 (by decide)⟩

/-- C4: `release_hatch` returns the response and body on 200/201, raises
Forbidden on 403, UploadTooLarge on 413, AlreadyUploaded on a 400 whose
(possibly detail-extracted) body contains "already been uploaded", and a
generic UploadException otherwise, whose message uses the JSON `detail`
field when the Content-Type is application/json and it parses, else the
raw body. -/
theorem upload_C4 (d : String → Option String) (r : HResp) :
    ((r.status = 200 ∨ r.status = 201) → release_hatch d r = HatchResult.success r r.body) ∧
    (r.status = 403 → release_hatch d r = HatchResult.forbidden) ∧
    (r.status = 413 → release_hatch d r = HatchResult.tooLarge) ∧
    (r.status = 400 → hasSubstring (extractErrorBody d r) "already been uploaded" = true →
      release_hatch d r = HatchResult.alreadyUp) ∧
    (r.status = 400 → hasSubstring (extractErrorBody d r) "already been uploaded" = false →
      release_hatch d r = HatchResult.failure
        ("Error: " ++ toString r.status ++ " response from the server: "
          ++ extractErrorBody d r)) ∧
    (r.status ≠ 200 → r.status ≠ 201 → r.status ≠ 403 → r.status ≠ 413 → r.status ≠ 400 →
      release_hatch d r = HatchResult.failure
        ("Error: " ++ toString r.status ++ " response from the server: "
          ++ extractErrorBody d r)) ∧
    (∀ dd : String, r.contentType = some "application/json" → d r.body = some dd →
      extractErrorBody d r = dd) ∧
    (r.contentType = some "application/json" → d r.body = none →
      extractErrorBody d r = r.body) ∧
    (r.contentType ≠ some "application/json" → extractErrorBody d r = r.body) := by
  refine ⟨?_, ?_, ?_, ?_, ?_, ?_, ?_, ?_, ?_⟩
  · intro h
    unfold release_hatch
    rw [if_pos h]
  · intro h
    exact release_hatch_forbidden d r h
  · intro h
    exact release_hatch_tooLarge d r h
  · intro h hs
    simp [release_hatch, h, hs]
  · intro h hs
    simp [release_hatch, h, hs]
  · intro h1 h2 h3 h4 h5
    simp [release_hatch, h1, h2, h3, h4, h5]
  · intro dd hct hd
    simp [extractErrorBody, hct, hd]
  · intro hct hd
    simp [extractErrorBody, hct, hd]
  · intro hct
    simp [extractErrorBody, hct]

/-- Witness for C4: a 403 response with a JSON content type raises
Forbidden. -/
theorem upload_C4_witness :
    release_hatch dW ⟨403, some "application/json", "x", ""⟩ = HatchResult.forbidden :=
  (upload_C4 dW ⟨403, some "application/json", "x", ""⟩).2.1 rfl

/-- C1: when the index fetch succeeds and every requested file is found, the
release-creation payload POSTed to the server has top-level metadata
`{"tool":"osrelease"}` and contains exactly the index entries whose name is
the (normalized) name of a requested file, each with its metadata field set
to `{"tool":"osrelease"}`, and no others. -/
theorem upload_C1 {detailOf : String → Option String} {server : Request → HResp}
    {parse : String → FileList} {files : List String} {cfg : Cfg}
    {resp : HResp} {body : String} {matched : List FileMetadata}
    (hidx : release_hatch detailOf (server (indexRequest cfg)) = HatchResult.success resp body)
    (hb : buildFiles (parse body) files = Except.ok matched) :
    (create_release detailOf server parse files cfg).trace
      = [indexRequest cfg, createRequest cfg ⟨matched, some toolMetadata⟩] ∧
    (FileList.mk matched (some toolMetadata)).metadata = some toolMetadata ∧
    (∀ md, md ∈ matched ↔
      ∃ f ∈ files, ∃ orig, (parse body).get f = some orig ∧ md = setToolMetadata orig) ∧
    (∀ md ∈ matched, ∃ f ∈ files, md.name = normalizePath f) :=
  ⟨create_release_matched hidx hb, rfl,
   fun md => buildFiles_mem hb md, buildFiles_names hb⟩

/-- Witness for C1: requesting `foo.txt` against the concrete two-file index
POSTs a payload containing exactly the annotated `foo.txt` entry. -/
theorem upload_C1_witness :
    (create_release dW serverOk parseW ["foo.txt"] cfgW).trace
      = [indexRequest cfgW,
         createRequest cfgW ⟨[setToolMetadata fmFoo], some toolMetadata⟩] ∧
    (FileList.mk [setToolMetadata fmFoo] (some toolMetadata)).metadata = some toolMetadata ∧
    (∀ md, md ∈ [setToolMetadata fmFoo] ↔
      ∃ f ∈ ["foo.txt"], ∃ orig, (parseW "IDX").get f = some orig
        ∧ md = setToolMetadata orig) ∧
    (∀ md ∈ [setToolMetadata fmFoo], ∃ f ∈ ["foo.txt"], md.name = normalizePath f) :=
  @upload_C1 dW serverOk parseW ["foo.txt"] cfgW ⟨200, none, "IDX", ""⟩ "IDX"
    [setToolMetadata fmFoo] (by decide) (by rfl)

/-- C5: when the release-creation POST is answered 403, `main` fails with the
"does not have permission to create a release" message and its whole trace is
the index GET and the creation POST — zero per-file upload requests are
issued. -/
theorem upload_C5 {detailOf : String → Option String} {server : Request → HResp}
    {parse : String → FileList} {files : List String} {cfg : Cfg}
    {resp : HResp} {body : String} {matched : List FileMetadata}
    (hidx : release_hatch detailOf (server (indexRequest cfg)) = HatchResult.success resp body)
    (hb : buildFiles (parse body) files = Except.ok matched)
    (h403 : (server (createRequest cfg ⟨matched, some toolMetadata⟩)).status = 403) :
    (main detailOf server parse files cfg).result
      = MainResult.failed (ExcVal.uploadError
          ("User " ++ cfg.username ++ " does not have permission to create a release")) ∧
    (main detailOf server parse files cfg).trace
      = [indexRequest cfg, createRequest cfg ⟨matched, some toolMetadata⟩] ∧
    (∀ r ∈ (main detailOf server parse files cfg).trace,
      ∀ rf, r.body ≠ ReqBody.releaseFileBody rf) := by
  have hforb := release_hatch_forbidden detailOf
    (server (createRequest cfg ⟨matched, some toolMetadata⟩)) h403
  have hc := create_release_forbidden_post hidx hb hforb
  have htr : (main detailOf server parse files cfg).trace
      = [indexRequest cfg, createRequest cfg ⟨matched, some toolMetadata⟩] := by
    unfold main
    rw [hc]
  refine ⟨?_, htr, ?_⟩
  · unfold main
    rw [hc]
  · intro r hr rf
    rw [htr] at hr
    rcases List.mem_cons.1 hr with rfl | hr2
    · simp [indexRequest]
    · rcases List.mem_cons.1 hr2 with rfl | hr3
      · simp [createRequest]
      · cases hr3

/-- Witness for C5: against a server that grants the index GET and answers the
creation POST with 403, the run fails with the permission message after
exactly two non-upload requests. -/
theorem upload_C5_witness :
    (main dW serverCreate403 parseW ["foo.txt"] cfgW).result
      = MainResult.failed (ExcVal.uploadError
          ("User " ++ cfgW.username ++ " does not have permission to create a release")) ∧
    (main dW serverCreate403 parseW ["foo.txt"] cfgW).trace
      = [indexRequest cfgW,
         createRequest cfgW ⟨[setToolMetadata fmFoo], some toolMetadata⟩] ∧
    (∀ r ∈ (main dW serverCreate403 parseW ["foo.txt"] cfgW).trace,
      ∀ rf, r.body ≠ ReqBody.releaseFileBody rf) :=
  @upload_C5 dW serverCreate403 parseW ["foo.txt"] cfgW ⟨200, none, "IDX", ""⟩ "IDX"
    [setToolMetadata fmFoo] (by decide) (by rfl) (by decide)

/-- C7: when the index fetch succeeds but some requested file is absent from
the parsed index, `create_release` exits with "cannot find file X" and its
trace is the index GET alone — no POST is issued at all. -/
theorem upload_C7 {detailOf : String → Option String} {server : Request → HResp}
    {parse : String → FileList} {files : List String} {cfg : Cfg}
    {resp : HResp} {body : String} {f : String}
    (hidx : release_hatch detailOf (server (indexRequest cfg)) = HatchResult.success resp body)
    (hmem : f ∈ files) (hnone : (parse body).get f = none) :
    ∃ g ∈ files, (parse body).get g = none ∧
      create_release detailOf server parse files cfg
        = ⟨[indexRequest cfg], CreateResult.exited ("cannot find file " ++ g)⟩ ∧
      ∀ r ∈ (create_release detailOf server parse files cfg).trace, r.method ≠ "POST" := by
  obtain ⟨g, hgmem, hgnone, hberr⟩ := buildFiles_error_of_missing hmem hnone
  have hc := create_release_missing hidx hberr
  refine ⟨g, hgmem, hgnone, hc, ?_⟩
  intro r hr
  rw [hc] at hr
  simp only [List.mem_singleton] at hr
  subst hr
  simp only [indexRequest]
  decide

/-- Witness for C7: requesting a file the concrete index does not contain
exits before any POST. -/
theorem upload_C7_witness :
    ∃ g ∈ ["nope.txt"], (parseW "IDX").get g = none ∧
      create_release dW serverOk parseW ["nope.txt"] cfgW
        = ⟨[indexRequest cfgW], CreateResult.exited ("cannot find file " ++ g)⟩ ∧
      ∀ r ∈ (create_release dW serverOk parseW ["nope.txt"] cfgW).trace,
        r.method ≠ "POST" :=
  @upload_C7 dW serverOk parseW ["nope.txt"] cfgW ⟨200, none, "IDX", ""⟩ "IDX" "nope.txt"
    (by decide) (by decide) (by decide)

/-- Counterexample to C2 as stated: on a one-file list whose upload is
answered 413, the file is reported skipped, yet the final report says
"Uploaded 1 files" although zero requests of the run were answered with a
success — the reported count is `len(files)`, not the number of successful
uploads. -/
theorem upload_C2_counterexample :
    (upload_to_release dW server413 ["foo.txt"] "R1" cfgW).log
      = [LogEvent.uploading "foo.txt", LogEvent.tooLargeSkip,
         LogEvent.uploadedSummary 1 "R1"] ∧
    successCount dW server413 (upload_to_release dW server413 ["foo.txt"] "R1" cfgW).trace
      = 0 := by
  exact ⟨by decide, by decide⟩

/-- C2 amended: a 413 or already-uploaded 400 on an individual file is
reported as a skip and processing continues through every remaining file
(one request per file, in order), and the final report "Uploaded N files"
uses N = the total length of the file list, counting skipped files as well
as successes. -/
theorem upload_C2_amended {d : String → Option String} {s : Request → HResp}
    {files : List String} {rid : String} {cfg : Cfg}
    (h : ∀ f ∈ files,
      continuesLoop (release_hatch d (s (uploadRequest (releaseUrl cfg rid) f))) = true) :
    (upload_to_release d s files rid cfg).trace
      = files.map (uploadRequest (releaseUrl cfg rid)) ∧
    (upload_to_release d s files rid cfg).log
      = files.flatMap (perFileLog d s (releaseUrl cfg rid))
          ++ [LogEvent.uploadedSummary files.length rid] ∧
    (upload_to_release d s files rid cfg).result = UploadResult.done := by
  have hloop := uploadLoop_all_continue h
  have hrun : upload_to_release d s files rid cfg
      = ⟨files.map (uploadRequest (releaseUrl cfg rid)),
         files.flatMap (perFileLog d s (releaseUrl cfg rid))
           ++ [LogEvent.uploadedSummary files.length rid],
         UploadResult.done⟩ := by
    simp only [upload_to_release, hloop]
  exact ⟨by rw [hrun], by rw [hrun], by rw [hrun]⟩

/-- Witness for the amended C2: both files of a run answered 413 throughout
are skipped, both are requested, and the summary still counts 2 files. -/
theorem upload_C2_amended_witness :
    (upload_to_release dW server413 ["foo.txt", "dir/bar.txt"] "R1" cfgW).trace
      = ["foo.txt", "dir/bar.txt"].map (uploadRequest (releaseUrl cfgW "R1")) ∧
    (upload_to_release dW server413 ["foo.txt", "dir/bar.txt"] "R1" cfgW).log
      = ["foo.txt", "dir/bar.txt"].flatMap (perFileLog dW server413 (releaseUrl cfgW "R1"))
          ++ [LogEvent.uploadedSummary (["foo.txt", "dir/bar.txt"] : List String).length "R1"] ∧
    (upload_to_release dW server413 ["foo.txt", "dir/bar.txt"] "R1" cfgW).result
      = UploadResult.done :=
  @upload_C2_amended dW server413 ["foo.txt", "dir/bar.txt"] "R1" cfgW (by decide)

/-- Counterexample to C3 as stated: the caller-supplied list
`["b.txt", "a.txt"]` is uploaded in exactly that order, which is not the
lexicographically sorted order of the paths (`a.txt` precedes `b.txt`). -/
theorem upload_C3_counterexample :
    (upload_to_release dW server201 ["b.txt", "a.txt"] "R1" cfgW).trace
      = [uploadRequest (releaseUrl cfgW "R1") "b.txt",
         uploadRequest (releaseUrl cfgW "R1") "a.txt"] ∧
    (upload_to_release dW server201 ["b.txt", "a.txt"] "R1" cfgW).trace
      ≠ [uploadRequest (releaseUrl cfgW "R1") "a.txt",
         uploadRequest (releaseUrl cfgW "R1") "b.txt"] ∧
    "a.txt".data < "b.txt".data := by
  exact ⟨by decide, by decide, by decide⟩

/-- C3 amended: per-file upload requests are issued strictly sequentially,
exactly one per file, in the order of the caller-supplied file list (which
is deterministic for a fixed list), not re-sorted. -/
theorem upload_C3_amended {d : String → Option String} {s : Request → HResp}
    {files : List String} {rid : String} {cfg : Cfg}
    (h : ∀ f ∈ files,
      continuesLoop (release_hatch d (s (uploadRequest (releaseUrl cfg rid) f))) = true) :
    (upload_to_release d s files rid cfg).trace
      = files.map (uploadRequest (releaseUrl cfg rid)) := by
  have hloop := uploadLoop_all_continue h
  simp only [upload_to_release, hloop]

/-- Witness for the amended C3: the unsorted list `["b.txt", "a.txt"]` is
requested in exactly that order. -/
theorem upload_C3_amended_witness :
    (upload_to_release dW server201 ["b.txt", "a.txt"] "R1" cfgW).trace
      = ["b.txt", "a.txt"].map (uploadRequest (releaseUrl cfgW "R1")) :=
  @upload_C3_amended dW server201 ["b.txt", "a.txt"] "R1" cfgW (by decide)

/-- C6: once one file's upload is answered 403, no request is issued for any
remaining file, exactly one permission-denied line is reported, and the
"Uploaded N files" summary is not reported. -/
theorem upload_C6 {d : String → Option String} {s : Request → HResp}
    {cfg : Cfg} {rid f : String} {pre post : List String}
    (hpre : ∀ g ∈ pre,
      continuesLoop (release_hatch d (s (uploadRequest (releaseUrl cfg rid) g))) = true)
    (hf : release_hatch d (s (uploadRequest (releaseUrl cfg rid) f))
      = HatchResult.forbidden) :
    (upload_to_release d s (pre ++ f :: post) rid cfg).trace
      = pre.map (uploadRequest (releaseUrl cfg rid))
          ++ [uploadRequest (releaseUrl cfg rid) f] ∧
    (upload_to_release d s (pre ++ f :: post) rid cfg).log
      = pre.flatMap (perFileLog d s (releaseUrl cfg rid))
          ++ [LogEvent.uploading f, LogEvent.deniedMsg rid] ∧
    List.count (LogEvent.deniedMsg rid)
      (upload_to_release d s (pre ++ f :: post) rid cfg).log = 1 ∧
    (∀ n r', LogEvent.uploadedSummary n r'
      ∉ (upload_to_release d s (pre ++ f :: post) rid cfg).log) ∧
    (upload_to_release d s (pre ++ f :: post) rid cfg).result
      = UploadResult.deniedReported := by
  have hloop := @uploadLoop_stops_forbidden d s (releaseUrl cfg rid) f pre post hpre hf
  have hrun : upload_to_release d s (pre ++ f :: post) rid cfg
      = ⟨pre.map (uploadRequest (releaseUrl cfg rid))
           ++ [uploadRequest (releaseUrl cfg rid) f],
         (pre.flatMap (perFileLog d s (releaseUrl cfg rid)) ++ [LogEvent.uploading f])
           ++ [LogEvent.deniedMsg rid],
         UploadResult.deniedReported⟩ := by
    simp only [upload_to_release, hloop]
  have hnotin : ∀ ev ∈ pre.flatMap (perFileLog d s (releaseUrl cfg rid)),
      (∀ rid', ev ≠ LogEvent.deniedMsg rid') ∧ (∀ n r', ev ≠ LogEvent.uploadedSummary n r') := by
    intro ev hev
    obtain ⟨g, hg, hevg⟩ := List.mem_flatMap.1 hev
    rcases perFileLog_events ev hevg with h1 | h1 | h1 <;> subst h1 <;>
      exact ⟨fun rid' => by simp, fun n r' => by simp⟩
  refine ⟨by rw [hrun], by rw [hrun]; simp, ?_, ?_, by rw [hrun]⟩
  · rw [hrun]
    simp only [List.append_assoc, List.count_append]
    have h0 : List.count (LogEvent.deniedMsg rid)
        (pre.flatMap (perFileLog d s (releaseUrl cfg rid))) = 0 :=
      List.count_eq_zero.2 (fun hc => (hnotin _ hc).1 rid rfl)
    rw [h0]
    simp [List.count_cons]
  · intro n r' hmem
    rw [hrun] at hmem
    simp only [List.append_assoc] at hmem
    rcases List.mem_append.1 hmem with hm1 | hm2
    · exact (hnotin _ hm1).2 n r' rfl
    · simp at hm2

/-- Witness for C6: with `a.txt` accepted, `b.txt` answered 403 and `c.txt`
pending, only `a.txt` and `b.txt` are requested, denial is reported once,
and no summary line appears. -/
theorem upload_C6_witness :
    (upload_to_release dW serverFileB403 (["a.txt"] ++ "b.txt" :: ["c.txt"]) "R1" cfgW).trace
      = ["a.txt"].map (uploadRequest (releaseUrl cfgW "R1"))
          ++ [uploadRequest (releaseUrl cfgW "R1") "b.txt"] ∧
    (upload_to_release dW serverFileB403 (["a.txt"] ++ "b.txt" :: ["c.txt"]) "R1" cfgW).log
      = ["a.txt"].flatMap (perFileLog dW serverFileB403 (releaseUrl cfgW "R1"))
          ++ [LogEvent.uploading "b.txt", LogEvent.deniedMsg "R1"] ∧
    List.count (LogEvent.deniedMsg "R1")
      (upload_to_release dW serverFileB403 (["a.txt"] ++ "b.txt" :: ["c.txt"]) "R1" cfgW).log = 1 ∧
    (∀ n r', LogEvent.uploadedSummary n r'
      ∉ (upload_to_release dW serverFileB403 (["a.txt"] ++ "b.txt" :: ["c.txt"]) "R1" cfgW).log) ∧
    (upload_to_release dW serverFileB403 (["a.txt"] ++ "b.txt" :: ["c.txt"]) "R1" cfgW).result
      = UploadResult.deniedReported :=
  @upload_C6 dW serverFileB403 cfgW "R1" "b.txt" ["a.txt"] ["c.txt"] (by decide) (by decide)

end OSRelease
